import Mathlib

/-!
Verification of the PDF semantic-search engine (app.py, create_index.py).

Shallow embedding conventions:
* Python strings are sequences of code points, modelled as `List Char`
  (`PyStr`); `len` is `List.length`.
* Python ints are `Nat`/`Int`.  `int(x)` on a positive float is floor; the
  float quotients `int(500 / (len/n))` are modelled exactly as the rational
  floor `500 * n / len`, i.e. `Nat` floor division.
* Embedding-vector components and similarity scores are modelled as `ℚ`.
* The sentence-transformers model and pypdf are external collaborators
  (spec §2): extraction results, the `encode` function and the query-side
  similarity map are arguments.
* Fallible Python code (exceptions) is modelled with `Except Err`.
-/

deriving instance DecidableEq for Except

/-- A Python string as its sequence of code points. -/
abbrev PyStr := List Char

/-- Errors raised by the pipeline (Python exceptions). -/
inductive Err where
  | notIndexed      -- ValueError "Aucun index chargé" (app.py line 113)
  | strideZero      -- ValueError from range() with a zero step (app.py line 72)
  | keyError        -- KeyError from a missing pickle dict key (app.py lines 105-106)
  | indexError      -- IndexError from self.chunks[idx] (app.py line 128)
  | extractionError -- pypdf failure inside extraire_texte_pdf
  | embeddingError  -- model.encode failure (app.py line 87)
  deriving DecidableEq

/-- A per-chunk metadata record: `{'page': n}` is `some n`, the empty dict `{}`
(the legacy sentinel) is `none`. -/
abbrev Meta := Option Nat

/-- One extracted page: `{'numero_page': ..., 'texte': ...}` (app.py lines 45-48). -/
structure Page where
  numero_page : Nat
  texte : PyStr
  deriving DecidableEq

/-- The engine state `MoteurRecherchePDF`: `self.chunks`, `self.embeddings`
(`None` before any index is loaded), `self.metadata` (app.py lines 30-32). -/
structure Moteur where
  chunks : List PyStr
  embeddings : Option (List (List ℚ))
  metadata : List Meta
  deriving DecidableEq

/-- The engine state right after `__init__` (app.py lines 30-32). -/
def moteurInit : Moteur := ⟨[], none, []⟩

/-- One search result dict (app.py lines 125-130); `page` is `none` when the
Python code produces the string sentinel `N/A`. -/
structure Resultat where
  rang : Nat
  score : ℚ
  texte : PyStr
  page : Option Nat
  deriving DecidableEq

/-- The pickled index dict.  A field is `none` when the key is absent from the
dict (`metadata` is absent in legacy artifacts, `model_name` is only written by
create_index.py line 82). -/
structure Artifact where
  chunks : Option (List PyStr)
  embeddings : Option (List (List ℚ))
  metadata : Option (List Meta)
  model_name : Option PyStr
  deriving DecidableEq

/-- The embedding model loaded by app.py (line 26). -/
def app_model_name : PyStr :=
  "sentence-transformers/paraphrase-multilingual-MiniLM-L12-v2".data

/-- The embedding model loaded by create_index.py (line 16). -/
def creer_model_name : PyStr :=
  "sentence-transformers/paraphrase-multilingual-mpnet-base-v2".data

/-! ## Chunker (decouper_en_chunks, app.py lines 53-79 = create_index.py lines 35-59)

Both call sites use the defaults `taille_chunk=500`, `overlap=100`, which we fix. -/

/-- Helper for `pySplit`: scan the characters, accumulating the current word
in reverse. -/
def splitWSAux : List Char → List Char → List PyStr
  | [], acc => if acc = [] then [] else [acc.reverse]
  | c :: cs, acc =>
    if c.isWhitespace then
      if acc = [] then splitWSAux cs [] else acc.reverse :: splitWSAux cs []
    else splitWSAux cs (c :: acc)

/-- Python `texte.split()`: split on runs of whitespace, no empty words
(app.py line 63). -/
def pySplit (s : PyStr) : List PyStr := splitWSAux s []

/-- Python `s.strip()`: remove leading and trailing whitespace. -/
def pyStrip (s : PyStr) : PyStr :=
  ((s.dropWhile Char.isWhitespace).reverse.dropWhile Char.isWhitespace).reverse

/-- Python `' '.join(ws)`. -/
def joinSpace (ws : List PyStr) : PyStr := List.intercalate [' '] ws

/-- `mots_par_chunk = int(taille_chunk / chars_par_mot) if chars_par_mot > 0 else 100`
(app.py line 69) with `chars_par_mot = len(texte) / len(mots)`; exactly,
`int(500 / (len / n)) = 500 * n / len` by `Nat` floor division.  `chars_par_mot > 0`
iff `len(texte) > 0` (the word count is positive whenever this line runs). -/
def motsParChunk (p : Page) : Nat :=
  if 0 < p.texte.length then 500 * (pySplit p.texte).length / p.texte.length else 100

/-- `overlap_mots = int(overlap / chars_par_mot) if chars_par_mot > 0 else 20`
(app.py line 70). -/
def overlapMots (p : Page) : Nat :=
  if 0 < p.texte.length then 100 * (pySplit p.texte).length / p.texte.length else 20

/-- The step of the window loop `range(0, len(mots), mots_par_chunk - overlap_mots)`
(app.py line 72), a Python int; `1` for a page that is skipped before the loop. -/
def pageStride (p : Page) : Int :=
  if pySplit p.texte = [] then 1
  else (motsParChunk p : Int) - (overlapMots p : Int)

/-- Python `range(0, stop, step)` for a positive `step`:
`[0, step, 2*step, ...]`, of length `⌈stop/step⌉`. -/
def pyRange (stop step : Nat) : List Nat :=
  List.range' 0 ((stop + step - 1) / step) step

/-- The chunks one page contributes (the body of the page loop, app.py
lines 60-76).  An empty word list skips the page; a zero step makes CPython's
`range` raise `ValueError` (modelled as `Err.strideZero`); a negative step
would make `range` empty (provably unreachable here).  Each window
`mots[i:i+mots_par_chunk]` is joined with single spaces and kept only when its
stripped length exceeds 50. -/
def pageChunks (p : Page) : Except Err (List PyStr) :=
  let mots := pySplit p.texte
  if mots = [] then .ok []
  else
    let mpc := motsParChunk p
    let step : Int := (mpc : Int) - (overlapMots p : Int)
    if step = 0 then .error .strideZero
    else if step < 0 then .ok []
    else .ok (((pyRange mots.length step.toNat).map fun i =>
        joinSpace ((mots.drop i).take mpc)).filter fun t => 50 < (pyStrip t).length)

/-- `decouper_en_chunks(pages_texte)` (app.py lines 53-79, create_index.py
lines 35-59): per-page chunks and their `{'page': page_num}` records,
concatenated in page order; the first in-loop exception aborts the whole call. -/
def decouper_en_chunks : List Page → Except Err (List PyStr × List Meta)
  | [] => .ok ([], [])
  | p :: ps =>
    match pageChunks p with
    | .error e => .error e
    | .ok cs =>
      match decouper_en_chunks ps with
      | .error e => .error e
      | .ok (restC, restM) =>
        .ok (cs ++ restC, (cs.map fun _ => some p.numero_page) ++ restM)

/-- The chunk list of one page on the success path (observer used to state the
chunk/metadata correspondence). -/
def pageChunksD (p : Page) : List PyStr := (pageChunks p).toOption.getD []

/-- The metadata records one page contributes: one `{'page': page_num}` per
kept chunk (app.py line 76). -/
def pageMeta (p : Page) : List Meta := (pageChunksD p).map fun _ => some p.numero_page

/-! ## Persistence (pickle dump / charger_index) -/

/-- The dict pickled by `indexer_pdf` (app.py lines 90-95): only `chunks`,
`embeddings` and `metadata` keys — no model identifier. -/
def sauvegarder_app (cs : List PyStr) (es : List (List ℚ)) (ms : List Meta) : Artifact :=
  ⟨some cs, some es, some ms, none⟩

/-- The dict pickled by `creer_index` (create_index.py lines 77-83): it also
writes `model_name`, from `self.model._model_card_vars.get('model_name', 'unknown')`
(an external introspection we take as an `Option PyStr` argument). -/
def sauvegarder_creer (cs : List PyStr) (es : List (List ℚ)) (ms : List Meta)
    (cardName : Option PyStr) : Artifact :=
  ⟨some cs, some es, some ms, some (cardName.getD "unknown".data)⟩

/-- `charger_index` (app.py lines 100-108): reads `data['chunks']` and
`data['embeddings']` (KeyError when absent), and
`data.get('metadata', [{}] * len(self.chunks))` — a missing metadata key is
replaced by empty-dict sentinels, one per loaded chunk.  The `model_name` key
is never read.  (On KeyError the startup hook, app.py lines 140-144, treats the
engine as not loaded.) -/
def charger_index (st : Moteur) (a : Artifact) : Except Err Moteur :=
  match a.chunks with
  | none => .error .keyError
  | some cs =>
    match a.embeddings with
    | none => .error .keyError
    | some es =>
      .ok { st with
        chunks := cs
        embeddings := some es
        metadata := a.metadata.getD (List.replicate cs.length none) }

/-! ## Indexing (indexer_pdf, app.py lines 81-98)

The method mutates `self.chunks`/`self.metadata` (line 84) before computing
`self.embeddings` (line 87); the state after each prefix of the method is made
explicit: an exception from a stage leaves exactly the assignments already
executed. -/

def indexer_pdf (st : Moteur) (extraction : Except Err (List Page))
    (encode : List PyStr → Except Err (List (List ℚ))) :
    Moteur × Except Err (Artifact × Nat) :=
  match extraction with
  | .error e => (st, .error e)
  | .ok pages =>
    match decouper_en_chunks pages with
    | .error e => (st, .error e)
    | .ok (cs, ms) =>
      let st1 : Moteur := { st with chunks := cs, metadata := ms }
      match encode cs with
      | .error e => (st1, .error e)
      | .ok es =>
        ({ st1 with embeddings := some es }, .ok (sauvegarder_app cs es ms, cs.length))

/-! ## Search (rechercher, app.py lines 110-132)

The similarity line (117-119) is floating-point linear algebra on the query
embedding; we abstract the map `chunk-embedding ↦ similarity-to-the-query`
as `simOf` and model everything after it exactly: the `None` check,
`np.argsort(similarities)[-top_k:][::-1]`, and the result-building loop.
`np.argsort` on arrays of this size is insertion sort, i.e. a stable ascending
sort of the (index, value) pairs. -/

/-- The comparison `np.argsort` sorts by: the similarity component of an
(index, value) pair. -/
def simLE (a b : Nat × ℚ) : Prop := a.2 ≤ b.2

instance : DecidableRel simLE := fun a b => inferInstanceAs (Decidable (a.2 ≤ b.2))

instance : IsTotal (Nat × ℚ) simLE := ⟨fun a b => le_total a.2 b.2⟩

instance : IsTrans (Nat × ℚ) simLE := ⟨fun _ _ _ h1 h2 => le_trans h1 h2⟩

/-- The (index, value) pairs of the array, stably sorted by ascending value. -/
def argsortPairs (sims : List ℚ) : List (Nat × ℚ) :=
  List.insertionSort simLE sims.enum

/-- `np.argsort(similarities)`: the indices that sort the array ascending,
equal values in original order. -/
def argsort (sims : List ℚ) : List Nat :=
  (argsortPairs sims).map Prod.fst

/-- Python `l[-k:]`: the last `k` elements — except that `l[-0:]` is `l[0:]`,
the whole list (app.py line 121 with `top_k = 0`). -/
def pyTailSlice (l : List α) (k : Nat) : List α :=
  if k = 0 then l else l.drop (l.length - k)

/-- `top_indices = np.argsort(similarities)[-top_k:][::-1]` (app.py line 121). -/
def topIndices (sims : List ℚ) (k : Nat) : List Nat :=
  (pyTailSlice (argsort sims) k).reverse

/-- The pair-level view of `topIndices` (proof device). -/
def topPairs (sims : List ℚ) (k : Nat) : List (Nat × ℚ) :=
  (pyTailSlice (argsortPairs sims) k).reverse

/-- The result-building loop (app.py lines 123-130): `rang = i+1`,
`score = similarities[idx]` (always in range: `idx` comes from `argsort`),
`texte = self.chunks[idx]` (IndexError when out of range),
`page = self.metadata[idx].get('page', 'N/A') if idx < len(self.metadata) else 'N/A'`
— which is exactly `metadata.getD idx none` under the `Meta` encoding. -/
def buildResultats (chunks : List PyStr) (metadata : List Meta) (sims : List ℚ) :
    List Nat → Nat → Except Err (List Resultat)
  | [], _ => .ok []
  | idx :: rest, i =>
    match chunks[idx]? with
    | none => .error .indexError
    | some t =>
      match buildResultats chunks metadata sims rest (i + 1) with
      | .error e => .error e
      | .ok tail =>
        .ok ({ rang := i + 1, score := sims.getD idx 0, texte := t,
               page := metadata.getD idx none } :: tail)

/-- `rechercher(question, top_k)` (app.py lines 110-132).  The `/search`
endpoint (lines 512-516) guards on the same `self.embeddings is None`
condition before calling it. -/
def rechercher (st : Moteur) (simOf : List ℚ → ℚ) (top_k : Nat) :
    Except Err (List Resultat) :=
  match st.embeddings with
  | none => .error .notIndexed
  | some embs =>
    let similarities := embs.map simOf
    buildResultats st.chunks st.metadata similarities (topIndices similarities top_k) 0

/-! ## Cosine similarity and zero norms (app.py lines 117-119)

`similarities = np.dot(self.embeddings, question_emb) /
(np.linalg.norm(self.embeddings, axis=1) * np.linalg.norm(question_emb))` with
no guard.  `np.linalg.norm v = Real.sqrt (sumSq v)`, which is `0` iff
`sumSq v = 0`; so a row's denominator is `0` iff `sumSq e * sumSq q = 0`.
Under IEEE-754, `0/0` is NaN. -/

/-- Sum of squares of a vector (the square of its Euclidean norm). -/
def sumSq (v : List ℚ) : ℚ := (v.map fun x => x * x).sum

/-- Dot product of two vectors. -/
def dotQ (a b : List ℚ) : ℚ := ((a.zip b).map fun pr => pr.1 * pr.2).sum

/-- Whether the similarity of chunk embedding `e` and query embedding `q`
computed by app.py lines 117-119 is IEEE NaN: numerator `0` and denominator `0`. -/
def simIsNaN (e q : List ℚ) : Bool :=
  (decide (sumSq e = 0) || decide (sumSq q = 0)) && decide (dotQ e q = 0)

/-! ## Chunker lemmas -/

/-- `int(100/c) ≤ int(500/c)`: the derived overlap never exceeds the derived
window size, so the loop step is never negative. -/
theorem overlapMots_le_motsParChunk (p : Page) : overlapMots p ≤ motsParChunk p := by
  unfold overlapMots motsParChunk
  split
  · exact Nat.div_le_div_right (Nat.mul_le_mul_right _ (by norm_num))
  · norm_num

/-- A page whose stride is nonzero never raises: `pageChunks` succeeds. -/
theorem pageChunks_isOk_of_stride_ne (p : Page) (h : pageStride p ≠ 0) :
    (pageChunks p).toOption.isSome = true := by
  by_cases h1 : pySplit p.texte = []
  · simp [pageChunks, h1, Except.toOption]
  · have hz : (motsParChunk p : Int) - (overlapMots p : Int) ≠ 0 := by
      simpa [pageStride, h1] using h
    simp only [pageChunks]
    rw [if_neg h1, if_neg hz]
    split <;> simp [Except.toOption]

/-- A page whose stride is zero raises `ValueError` from `range`. -/
theorem pageChunks_error_of_stride_eq (p : Page) (h : pageStride p = 0) :
    pageChunks p = .error .strideZero := by
  by_cases h1 : pySplit p.texte = []
  · simp [pageStride, h1] at h
  · have hz : (motsParChunk p : Int) - (overlapMots p : Int) = 0 := by
      simpa [pageStride, h1] using h
    simp only [pageChunks]
    rw [if_neg h1, if_pos hz]

/-- Every kept chunk of a page passes the `len(chunk.strip()) > 50` guard. -/
theorem pageChunks_strip_gt (p : Page) (cs : List PyStr) (h : pageChunks p = .ok cs) :
    ∀ t ∈ cs, 50 < (pyStrip t).length := by
  simp only [pageChunks] at h
  split at h
  · cases h; simp
  · split at h
    · cases h
    · split at h
      · cases h; simp
      · cases h
        intro t ht
        have := List.of_mem_filter ht
        simpa using this

/-- Structure of a successful `decouper_en_chunks` run: chunks and metadata are
the page-order concatenations of the per-page contributions. -/
theorem decouper_structure : ∀ (pages : List Page) (c : List PyStr) (m : List Meta),
    decouper_en_chunks pages = .ok (c, m) →
    c = pages.flatMap pageChunksD ∧ m = pages.flatMap pageMeta
  | [], c, m => by
    intro h
    simp only [decouper_en_chunks] at h
    cases h
    simp
  | p :: ps, c, m => by
    intro h
    simp only [decouper_en_chunks] at h
    cases hc : pageChunks p with
    | error e => rw [hc] at h; cases h
    | ok cs =>
      rw [hc] at h
      cases hr : decouper_en_chunks ps with
      | error e => rw [hr] at h; cases h
      | ok pr =>
        obtain ⟨c1, m1⟩ := pr
        rw [hr] at h
        cases h
        obtain ⟨h1, h2⟩ := decouper_structure ps c1 m1 hr
        have hd : pageChunksD p = cs := by simp [pageChunksD, hc, Except.toOption]
        refine ⟨?_, ?_⟩
        · rw [List.flatMap_cons, hd, h1]
        · rw [List.flatMap_cons, pageMeta, hd, h2]

/-- Chunk and metadata sequences of a successful run have equal length. -/
theorem decouper_length_eq (pages : List Page) (c : List PyStr) (m : List Meta)
    (h : decouper_en_chunks pages = .ok (c, m)) : c.length = m.length := by
  obtain ⟨h1, h2⟩ := decouper_structure pages c m h
  subst h1 h2
  simp only [List.length_flatMap]
  congr 1
  exact List.map_congr_left fun p _ => by simp [Function.comp, pageMeta]

/-! ## Search lemmas -/

/-- `argsortPairs` is a permutation of the enumerated array. -/
theorem argsortPairs_perm (sims : List ℚ) : (argsortPairs sims).Perm sims.enum :=
  List.perm_insertionSort simLE sims.enum

theorem length_argsortPairs (sims : List ℚ) : (argsortPairs sims).length = sims.length :=
  (argsortPairs_perm sims).length_eq.trans List.enum_length

/-- Each sorted pair is an in-range index together with the value stored there. -/
theorem mem_argsortPairs (sims : List ℚ) (pr : Nat × ℚ) (h : pr ∈ argsortPairs sims) :
    pr.1 < sims.length ∧ sims.getD pr.1 0 = pr.2 := by
  have hm : pr ∈ sims.enum := (argsortPairs_perm sims).mem_iff.mp h
  have hg : sims[pr.1]? = some pr.2 := by
    obtain ⟨i, v⟩ := pr
    simpa using (List.mk_mem_enum_iff_getElem?).mp hm
  refine ⟨?_, ?_⟩
  · exact (List.getElem?_eq_some.mp hg).1
  · simp [List.getD_eq_getElem?_getD, hg]

theorem sorted_argsortPairs (sims : List ℚ) : List.Pairwise simLE (argsortPairs sims) :=
  List.sorted_insertionSort simLE sims.enum

theorem pyTailSlice_sublist (l : List α) (k : Nat) : (pyTailSlice l k).Sublist l := by
  unfold pyTailSlice
  split
  · exact List.Sublist.refl l
  · exact List.drop_sublist _ l

theorem mem_topPairs (sims : List ℚ) (k : Nat) (pr : Nat × ℚ) (h : pr ∈ topPairs sims k) :
    pr ∈ argsortPairs sims :=
  (pyTailSlice_sublist _ k).subset (List.mem_reverse.mp h)

/-- The values along `topPairs` are non-increasing. -/
theorem topPairs_snd_sorted (sims : List ℚ) (k : Nat) :
    List.Pairwise (fun a b : Nat × ℚ => b.2 ≤ a.2) (topPairs sims k) := by
  unfold topPairs
  rw [List.pairwise_reverse]
  exact (sorted_argsortPairs sims).sublist (pyTailSlice_sublist _ k)

theorem topIndices_eq (sims : List ℚ) (k : Nat) :
    topIndices sims k = (topPairs sims k).map Prod.fst := by
  simp only [topIndices, topPairs, argsort, pyTailSlice, List.length_map]
  split <;> simp [List.map_reverse, List.map_drop]

theorem length_topPairs (sims : List ℚ) (k : Nat) (hk : k ≠ 0) :
    (topPairs sims k).length = min k sims.length := by
  unfold topPairs pyTailSlice
  rw [if_neg hk, List.length_reverse, List.length_drop, length_argsortPairs]
  omega

theorem length_topPairs_zero (sims : List ℚ) :
    (topPairs sims 0).length = sims.length := by
  simp [topPairs, pyTailSlice, length_argsortPairs]

/-- The result-building loop succeeds when every selected index is a valid
chunk index, and then produces one result per index, whose score is the
similarity stored at that index. -/
theorem buildResultats_ok (chunks : List PyStr) (meta : List Meta) (sims : List ℚ) :
    ∀ (idxs : List Nat) (i : Nat), (∀ j ∈ idxs, j < chunks.length) →
      ∃ res, buildResultats chunks meta sims idxs i = .ok res ∧
        res.length = idxs.length ∧
        res.map Resultat.score = idxs.map fun j => sims.getD j 0
  | [], _, _ => ⟨[], rfl, rfl, rfl⟩
  | idx :: rest, i, h => by
    obtain ⟨res, hres, hlen, hsc⟩ :=
      buildResultats_ok chunks meta sims rest (i + 1)
        fun j hj => h j (List.mem_cons_of_mem _ hj)
    have hidx : idx < chunks.length := h idx (List.mem_cons_self _ _)
    have hget : chunks[idx]? = some chunks[idx] := List.getElem?_eq_getElem hidx
    refine ⟨{ rang := i + 1, score := sims.getD idx 0, texte := chunks[idx],
              page := meta.getD idx none } :: res, ?_, ?_, ?_⟩
    · simp only [buildResultats]
      rw [hget, hres]
    · simpa using hlen
    · simpa using hsc

/-- Core success lemma for `rechercher` on a loaded index whose chunk list is
at least as long as its embedding list: it returns one result per selected
index, with non-increasing scores. -/
theorem rechercher_ok (chunks : List PyStr) (meta : List Meta) (embs : List (List ℚ))
    (simOf : List ℚ → ℚ) (k : Nat) (hlen : chunks.length = embs.length) :
    ∃ res, rechercher ⟨chunks, some embs, meta⟩ simOf k = .ok res ∧
      res.length = (topPairs (embs.map simOf) k).length ∧
      List.Pairwise (fun a b : Resultat => b.score ≤ a.score) res := by
  have hidx : ∀ j ∈ topIndices (embs.map simOf) k, j < chunks.length := by
    intro j hj
    rw [topIndices_eq] at hj
    obtain ⟨pr, hpr, rfl⟩ := List.mem_map.mp hj
    have h1 := (mem_argsortPairs _ pr (mem_topPairs _ k pr hpr)).1
    rw [List.length_map] at h1
    omega
  obtain ⟨res, hres, hlenr, hsc⟩ :=
    buildResultats_ok chunks meta (embs.map simOf) (topIndices (embs.map simOf) k) 0 hidx
  refine ⟨res, ?_, ?_, ?_⟩
  · exact hres
  · rw [hlenr, topIndices_eq, List.length_map]
  · have hmap : res.map Resultat.score = (topPairs (embs.map simOf) k).map Prod.snd := by
      rw [hsc, topIndices_eq, List.map_map]
      exact List.map_congr_left fun pr hpr =>
        (mem_argsortPairs _ pr (mem_topPairs _ k pr hpr)).2
    have hps : List.Pairwise (fun a b : ℚ => b ≤ a) (res.map Resultat.score) := by
      rw [hmap]
      exact List.Pairwise.map _ (fun a b h => h) (topPairs_snd_sorted _ k)
    exact (List.pairwise_map).mp hps

/-! ## Cosine-similarity lemmas -/

theorem sumSq_nonneg (v : List ℚ) : 0 ≤ sumSq v := by
  induction v with
  | nil => simp [sumSq]
  | cons x xs ih =>
    have : sumSq (x :: xs) = x * x + sumSq xs := by simp [sumSq]
    rw [this]
    nlinarith [mul_self_nonneg x]

theorem sumSq_eq_zero_iff (v : List ℚ) : sumSq v = 0 ↔ ∀ x ∈ v, x = 0 := by
  induction v with
  | nil => simp [sumSq]
  | cons x xs ih =>
    have hc : sumSq (x :: xs) = x * x + sumSq xs := by simp [sumSq]
    rw [hc]
    constructor
    · intro h
      have h2 := (add_eq_zero_iff_of_nonneg (mul_self_nonneg x) (sumSq_nonneg xs)).mp h
      intro y hy
      rcases List.mem_cons.mp hy with rfl | hy
      · exact mul_self_eq_zero.mp h2.1
      · exact (ih.mp h2.2) y hy
    · intro h
      have hx : x = 0 := h x (List.mem_cons_self _ _)
      have hxs : sumSq xs = 0 := ih.mpr fun y hy => h y (List.mem_cons_of_mem _ hy)
      rw [hx, hxs]
      ring

theorem dotQ_eq_zero_left : ∀ (a b : List ℚ), (∀ x ∈ a, x = 0) → dotQ a b = 0
  | [], _, _ => rfl
  | _ :: _, [], _ => rfl
  | x :: xs, y :: ys, h => by
    have hx : x = 0 := h x (List.mem_cons_self _ _)
    have ih := dotQ_eq_zero_left xs ys fun z hz => h z (List.mem_cons_of_mem _ hz)
    simp only [dotQ, List.zip_cons_cons, List.map_cons, List.sum_cons] at *
    rw [hx, ih]
    ring

theorem dotQ_eq_zero_right : ∀ (a b : List ℚ), (∀ y ∈ b, y = 0) → dotQ a b = 0
  | [], _, _ => rfl
  | _ :: _, [], _ => rfl
  | x :: xs, y :: ys, h => by
    have hy : y = 0 := h y (List.mem_cons_self _ _)
    have ih := dotQ_eq_zero_right xs ys fun z hz => h z (List.mem_cons_of_mem _ hz)
    simp only [dotQ, List.zip_cons_cons, List.map_cons, List.sum_cons] at *
    rw [hy, ih]
    ring

/-! ## Claim theorems -/

/-- Claim C3: for every input page the window stride is never negative; a zero
stride (derived overlap equal to the derived window size) is treated as an
error — CPython's `range` raises `ValueError`, aborting the run — and the
chunker terminates on every page (any nonzero stride yields a result). -/
theorem chunker_stride_safe (p : Page) :
    0 ≤ pageStride p ∧ (pageStride p = 0 → pageChunks p = .error .strideZero) ∧
    (pageStride p ≠ 0 → (pageChunks p).toOption.isSome = true) := by
  refine ⟨?_, pageChunks_error_of_stride_eq p, pageChunks_isOk_of_stride_ne p⟩
  unfold pageStride
  split
  · norm_num
  · have := overlapMots_le_motsParChunk p
    omega

set_option maxRecDepth 20000 in
/-- Witness for C3: a page whose only word has 501 characters derives a zero
stride and raises; an ordinary page has a positive stride and succeeds. -/
theorem chunker_stride_safe_witness :
    pageChunks ⟨1, List.replicate 501 'a'⟩ = .error .strideZero ∧
    (pageChunks ⟨7, "abc def".data⟩).toOption.isSome = true :=
  ⟨(chunker_stride_safe ⟨1, List.replicate 501 'a'⟩).2.1 (by decide),
   (chunker_stride_safe ⟨7, "abc def".data⟩).2.2 (by decide)⟩

/-- Claim C7: every chunk emitted by the chunker has stripped length strictly
greater than 50; in particular the single page "Paris est la capitale de la
France." with the default target yields zero chunks. -/
theorem chunk_min_length :
    (∀ (pages : List Page) (c : List PyStr) (m : List Meta),
        decouper_en_chunks pages = .ok (c, m) → ∀ t ∈ c, 50 < (pyStrip t).length) ∧
    decouper_en_chunks [⟨1, "Paris est la capitale de la France.".data⟩] = .ok ([], []) := by
  constructor
  · intro pages c m h t ht
    obtain ⟨hc, -⟩ := decouper_structure pages c m h
    subst hc
    obtain ⟨p, hp, htc⟩ := List.mem_flatMap.mp ht
    cases hpc : pageChunks p with
    | error e => rw [pageChunksD, hpc] at htc; simp [Except.toOption] at htc
    | ok cs =>
      exact pageChunks_strip_gt p cs hpc t
        (by simpa [pageChunksD, hpc, Except.toOption] using htc)
  · decide

set_option maxRecDepth 20000 in
/-- Witness for C7: a 99-character page yields one chunk (the whole page), and
the theorem bounds its stripped length. -/
theorem chunk_min_length_witness :
    50 < (pyStrip (joinSpace (List.replicate 20 "abcd".data))).length :=
  chunk_min_length.1 [⟨1, joinSpace (List.replicate 20 "abcd".data)⟩]
    [joinSpace (List.replicate 20 "abcd".data)] [some 1] (by decide)
    (joinSpace (List.replicate 20 "abcd".data)) (by decide)

/-- Claim C6 (amended): after a successful chunking run, the chunk and
metadata sequences have equal length and are the page-order concatenations of
per-page chunks and their page numbers (metadata[i].page is the page whose
words form chunk[i]); after loading an artifact with **no** metadata field the
metadata is synthesized with the chunk count and the unavailable sentinel;
a *present* metadata field is loaded verbatim, even when its length differs
from the chunk count. -/
theorem chunks_metadata_alignment :
    (∀ (pages : List Page) (c : List PyStr) (m : List Meta),
        decouper_en_chunks pages = .ok (c, m) →
        c.length = m.length ∧ c = pages.flatMap pageChunksD ∧ m = pages.flatMap pageMeta) ∧
    (∀ (st : Moteur) (cs : List PyStr) (es : List (List ℚ)) (mn : Option PyStr),
        charger_index st ⟨some cs, some es, none, mn⟩ =
          .ok ⟨cs, some es, List.replicate cs.length none⟩) := by
  constructor
  · intro pages c m h
    obtain ⟨h1, h2⟩ := decouper_structure pages c m h
    exact ⟨decouper_length_eq pages c m h, h1, h2⟩
  · intro st cs es mn
    rfl

/-- Counterexample for C6 as stated: loading an artifact whose metadata field
is present but shorter than its chunk list keeps the short metadata verbatim,
so the loaded metadata length (1) differs from the chunk count (2). -/
theorem chunks_metadata_alignment_counterexample :
    charger_index moteurInit ⟨some ["x".data, "y".data], some [[1], [2]], some [some 1], none⟩ =
      .ok ⟨["x".data, "y".data], some [[1], [2]], [some 1]⟩ ∧
    ([some 1] : List Meta).length ≠ (["x".data, "y".data] : List PyStr).length :=
  ⟨rfl, by decide⟩

/-- Witness for C6: the chunking half applied to the Paris page (zero chunks,
zero metadata), and the loading half applied to a concrete legacy artifact. -/
theorem chunks_metadata_alignment_witness :
    (([] : List PyStr).length = ([] : List Meta).length ∧
      ([] : List PyStr) = [⟨(1 : Nat), "Paris est la capitale de la France.".data⟩].flatMap pageChunksD ∧
      ([] : List Meta) = [⟨(1 : Nat), "Paris est la capitale de la France.".data⟩].flatMap pageMeta) ∧
    charger_index moteurInit ⟨some ["x".data], some [[1]], none, none⟩ =
      .ok ⟨["x".data], some [[1]], List.replicate 1 none⟩ :=
  ⟨chunks_metadata_alignment.1 [⟨1, "Paris est la capitale de la France.".data⟩] [] [] (by decide),
   chunks_metadata_alignment.2 moteurInit ["x".data] [[1]] none⟩

/-- Claim C8: loading the artifact produced by saving an index restores
exactly the same chunk texts, embeddings and metadata, in the same order
(pickle round-trips the three sequences losslessly). -/
theorem save_load_roundtrip (st : Moteur) (cs : List PyStr) (es : List (List ℚ))
    (ms : List Meta) :
    charger_index st (sauvegarder_app cs es ms) = .ok ⟨cs, some es, ms⟩ := rfl

/-- Claim C5 (amended): the app's save path records no model identifier at
all; only the standalone create_index script records one (with the fallback
string `unknown`); and loading ignores any recorded identifier entirely. -/
theorem model_identifier_not_validated :
    (∀ (cs : List PyStr) (es : List (List ℚ)) (ms : List Meta),
        (sauvegarder_app cs es ms).model_name = none) ∧
    (∀ (cs : List PyStr) (es : List (List ℚ)) (ms : List Meta) (nm : Option PyStr),
        (sauvegarder_creer cs es ms nm).model_name = some (nm.getD "unknown".data)) ∧
    (∀ (st : Moteur) (a : Artifact) (nm : Option PyStr),
        charger_index st { a with model_name := nm } = charger_index st a) :=
  ⟨fun _ _ _ => rfl, fun _ _ _ _ => rfl, fun _ _ _ => rfl⟩

/-- Counterexample for C5 as stated: the app save records no model name, and
an artifact recorded with the create_index model (mpnet) loads without any
error into the app engine whose model is MiniLM — no loud failure on
mismatch. -/
theorem model_mismatch_accepted :
    (sauvegarder_app ["t".data] [[1]] [some 1]).model_name = none ∧
    (sauvegarder_creer ["t".data] [[1]] [some 1] (some creer_model_name)).model_name =
      some creer_model_name ∧
    creer_model_name ≠ app_model_name ∧
    charger_index moteurInit (sauvegarder_creer ["t".data] [[1]] [some 1]
      (some creer_model_name)) = .ok ⟨["t".data], some [[1]], [some 1]⟩ :=
  ⟨rfl, rfl, by decide, rfl⟩

set_option maxRecDepth 20000 in
/-- Claim C4 (code bug): when the embedding stage fails, `indexer_pdf` has
already overwritten `self.chunks` and `self.metadata` (app.py line 84) while
`self.embeddings` still holds the previous index's array — the previously
loaded index is **not** left as it was. -/
theorem failed_embedding_corrupts_state :
    indexer_pdf ⟨["OLD".data], some [[7], [8]], [some 9]⟩
        (.ok [⟨1, joinSpace (List.replicate 20 "abcd".data)⟩])
        (fun _ => .error .embeddingError) =
      (⟨[joinSpace (List.replicate 20 "abcd".data)], some [[7], [8]], [some 1]⟩,
        .error .embeddingError) ∧
    [joinSpace (List.replicate 20 "abcd".data)] ≠ ["OLD".data] := by
  exact ⟨rfl, by decide⟩

/-- Claim C9: searching with no index loaded fails with the NotIndexedError
(`ValueError("Aucun index chargé")`) and produces no results; a successful
search implies an index is loaded. -/
theorem search_requires_index :
    (∀ (st : Moteur) (simOf : List ℚ → ℚ) (k : Nat), st.embeddings = none →
        rechercher st simOf k = .error .notIndexed) ∧
    (∀ (st : Moteur) (simOf : List ℚ → ℚ) (k : Nat) (res : List Resultat),
        rechercher st simOf k = .ok res → st.embeddings.isSome = true) := by
  constructor
  · intro st simOf k h
    unfold rechercher
    rw [h]
  · intro st simOf k res h
    cases he : st.embeddings with
    | none => unfold rechercher at h; rw [he] at h; cases h
    | some _ => rfl

/-- Witness for C9: the freshly initialised engine rejects a search, and a
concrete successful search has a loaded index. -/
theorem search_requires_index_witness :
    rechercher moteurInit (fun _ => 0) 3 = .error .notIndexed ∧
    (Moteur.mk ["c".data] (some [[1]]) [some 1]).embeddings.isSome = true :=
  ⟨search_requires_index.1 moteurInit (fun _ => 0) 3 rfl,
   search_requires_index.2 ⟨["c".data], some [[1]], [some 1]⟩ (fun e => e.headD 0) 3
     [⟨1, 1, "c".data, some 1⟩] rfl⟩

/-- Claim C10: on a loaded index, `top_k = 0` makes the slice `[-0:]` select
the entire argsort result, so search returns all `n` chunks ranked — never an
empty list when the index is non-empty. -/
theorem topk_zero_returns_all :
    ∀ (chunks : List PyStr) (meta : List Meta) (embs : List (List ℚ))
      (simOf : List ℚ → ℚ), chunks.length = embs.length →
      ∃ res, rechercher ⟨chunks, some embs, meta⟩ simOf 0 = .ok res ∧
        res.length = chunks.length ∧ (chunks ≠ [] → res ≠ []) := by
  intro chunks meta embs simOf hlen
  obtain ⟨res, h1, h2, h3⟩ := rechercher_ok chunks meta embs simOf 0 hlen
  have hl : res.length = chunks.length := by
    rw [h2, length_topPairs_zero, List.length_map, hlen]
  refine ⟨res, h1, hl, fun hne hr => hne ?_⟩
  rw [← List.length_eq_zero, ← hl, hr]
  rfl

/-- Witness for C10: a loaded 1-chunk index searched with `top_k = 0`. -/
theorem topk_zero_returns_all_witness :
    ∃ res, rechercher ⟨["c".data], some [[1]], [some 1]⟩ (fun e => e.headD 0) 0 = .ok res ∧
      res.length = (["c".data] : List PyStr).length ∧
      ((["c".data] : List PyStr) ≠ [] → res ≠ []) :=
  topk_zero_returns_all ["c".data] [some 1] [[1]] (fun e => e.headD 0) rfl

/-- Claim C2 (code bug): whenever either the chunk embedding or the query
embedding has zero norm, the unguarded division of app.py lines 117-119
computes `0/0`, which is IEEE NaN — **not** the `0` the claim states; the NaN
propagates into the ranking. -/
theorem zero_norm_similarity_is_nan :
    (∀ e q : List ℚ, sumSq e = 0 ∨ sumSq q = 0 → simIsNaN e q = true) ∧
    simIsNaN [0, 0] [1, 2] = true ∧ simIsNaN [1, 2] [0, 0] = true := by
  refine ⟨?_, by norm_num [simIsNaN, sumSq, dotQ], by norm_num [simIsNaN, sumSq, dotQ]⟩
  intro e q h
  unfold simIsNaN
  rcases h with h | h
  · simp [h, dotQ_eq_zero_left e q ((sumSq_eq_zero_iff e).mp h)]
  · simp [h, dotQ_eq_zero_right e q ((sumSq_eq_zero_iff q).mp h)]

/-- Witness for C2: a zero chunk embedding against the query `[3]`. -/
theorem zero_norm_similarity_is_nan_witness : simIsNaN [0] [3] = true :=
  zero_norm_similarity_is_nan.1 [0] [3] (Or.inl (by norm_num [sumSq]))

/-- Counterexample for C1 as stated: on the spec's own scenario
(similarities [0.9, 0.4, 0.9, 0.1, 0.7], `top_k = 3`) the ranked chunks are
the ones at indices [2, 0, 4] — the tie between indices 0 and 2 is won by the
**higher** original index, because `argsort` sorts ascending with ties in
original order and the trailing `[::-1]` reverses them — not [0, 2, 4] as the
claim states. -/
theorem search_tie_break_counterexample :
    (rechercher ⟨["c0".data, "c1".data, "c2".data, "c3".data, "c4".data],
        some [[9/10], [4/10], [9/10], [1/10], [7/10]],
        [some 1, some 2, some 3, some 4, some 5]⟩ (fun e => e.headD 0) 3).map
      (List.map Resultat.texte) = .ok ["c2".data, "c0".data, "c4".data] ∧
    ["c2".data, "c0".data, "c4".data] ≠ ["c0".data, "c2".data, "c4".data] := by
  constructor
  · norm_num [rechercher, buildResultats, topIndices, argsort, argsortPairs, pyTailSlice,
      simLE, List.insertionSort, List.orderedInsert, List.enum, List.enumFrom, Except.map]
  · decide

/-- Claim C1 (amended): for every loaded index with aligned chunk and
embedding sequences and every positive `top_k`, search returns exactly
`min(top_k, n)` results sorted by non-increasing similarity (all chunks ranked
when `top_k` exceeds `n`); ties between equal scores come out with the higher
original chunk index first (when the underlying argsort is stable, as on the
scenario's array sizes): the scenario's ranked indices are [2, 0, 4] with
scores [0.9, 0.9, 0.7] and their pages attached. -/
theorem search_topk_sorted :
    (∀ (chunks : List PyStr) (meta : List Meta) (embs : List (List ℚ))
        (simOf : List ℚ → ℚ) (k : Nat), 1 ≤ k → chunks.length = embs.length →
        ∃ res, rechercher ⟨chunks, some embs, meta⟩ simOf k = .ok res ∧
          res.length = min k embs.length ∧
          List.Pairwise (fun a b : Resultat => b.score ≤ a.score) res) ∧
    rechercher ⟨["c0".data, "c1".data, "c2".data, "c3".data, "c4".data],
        some [[9/10], [4/10], [9/10], [1/10], [7/10]],
        [some 1, some 2, some 3, some 4, some 5]⟩ (fun e => e.headD 0) 3 =
      .ok [⟨1, 9/10, "c2".data, some 3⟩, ⟨2, 9/10, "c0".data, some 1⟩,
           ⟨3, 7/10, "c4".data, some 5⟩] := by
  constructor
  · intro chunks meta embs simOf k hk hlen
    obtain ⟨res, h1, h2, h3⟩ := rechercher_ok chunks meta embs simOf k hlen
    refine ⟨res, h1, ?_, h3⟩
    rw [h2, length_topPairs _ _ (by omega), List.length_map]
  · norm_num [rechercher, buildResultats, topIndices, argsort, argsortPairs, pyTailSlice,
      simLE, List.insertionSort, List.orderedInsert, List.enum, List.enumFrom]

/-- Witness for C1 (amended): a concrete 2-chunk index searched with
`top_k = 1`. -/
theorem search_topk_sorted_witness :
    ∃ res, rechercher ⟨["a".data, "b".data], some [[1], [2]], [some 1, some 2]⟩
        (fun e => e.headD 0) 1 = .ok res ∧
      res.length = min 1 ([[(1 : ℚ)], [2]] : List (List ℚ)).length ∧
      List.Pairwise (fun a b : Resultat => b.score ≤ a.score) res :=
  search_topk_sorted.1 ["a".data, "b".data] [some 1, some 2] [[1], [2]]
    (fun e => e.headD 0) 1 (le_refl 1) rfl
